import Mathlib

/-!
Shallow embedding of the fitness-tracker backend (`src/server/routes/auth.js`
mounted by the entry service). Each Express route handler becomes a pure
function from the document store and the parsed request body to a result
holding the HTTP status, the JSON response body (as an association list),
the updated store, and the trace of document-store operations the handler
issued. Request-body fields are `Option`-valued: `none` models an absent
JSON key; text fields carry `String`, and the numeric-or-text fields
(`duration`, `calories`, `weight`, `bmi`, `fat`) carry a JSON value that is
either a string or a number, since the handlers' truthiness checks and
`parseInt` coercion distinguish the two.
-/

/-- A JSON scalar as the numeric-capable handlers see it: the request may
supply such a field as a string or as a number. -/
inductive JsonVal where
  | vstr : String → JsonVal
  | vnum : Int → JsonVal
deriving DecidableEq, Repr

/-- JavaScript truthiness of an optional string field: `undefined` and the
empty string are falsy (`!x` in the handlers). -/
def strTruthy : Option String → Bool
  | none => false
  | some s => !s.isEmpty

/-- JavaScript truthiness of an optional JSON scalar: `undefined`, `""` and
the number `0` are falsy. -/
def jvTruthy : Option JsonVal → Bool
  | none => false
  | some (.vstr s) => !s.isEmpty
  | some (.vnum n) => n != 0

/-- Accumulate a decimal digit list into a natural number. -/
def digitsToNat (cs : List Char) : Nat :=
  cs.foldl (fun a c => a * 10 + (c.toNat - 48)) 0

/-- JavaScript `parseInt` on a string: skip leading whitespace, read an
optional sign and then the leading run of decimal digits; `none` models the
`NaN` result when no digits are found. -/
def parseIntStr (s : String) : Option Int :=
  let cs := s.data.dropWhile (fun c => c = ' ' || c = '\t' || c = '\n' || c = '\r')
  match cs with
  | '-' :: rest =>
    let ds := rest.takeWhile Char.isDigit
    if ds.isEmpty then none else some (-(digitsToNat ds : Int))
  | '+' :: rest =>
    let ds := rest.takeWhile Char.isDigit
    if ds.isEmpty then none else some ((digitsToNat ds : Int))
  | _ =>
    let ds := cs.takeWhile Char.isDigit
    if ds.isEmpty then none else some ((digitsToNat ds : Int))

/-- JavaScript `parseInt` on a JSON scalar: a number is returned unchanged
(the handlers only ever receive integral numbers here), a string is parsed. -/
def parseIntJS : JsonVal → Option Int
  | .vnum n => some n
  | .vstr s => parseIntStr s

/-- A stored account (`userSchema`). Role-specific fields are optional at
the storage level: the register handler only sets the ones matching the
role. -/
structure User where
  fullname : String
  email : String
  password : String
  role : String
  goal : Option String
  specialization : Option String
  experience : Option String
  certification : Option String
deriving DecidableEq, Repr

/-- A stored workout (`workoutSchema`). `duration` and `calories` hold the
`parseInt` result; `none` models `NaN`. `wtype` embeds the `type` field. -/
structure Workout where
  email : String
  wtype : String
  duration : Option Int
  calories : Option Int
  date : String
  notes : String
deriving DecidableEq, Repr

/-- A stored metric record (`metricsSchema`); numeric fields are kept as the
JSON scalar the handler passed to the store. -/
structure Metric where
  email : String
  date : String
  weight : JsonVal
  bmi : JsonVal
  fat : JsonVal
deriving DecidableEq, Repr

/-- A stored plan (`planSchema`) with its record identifier (`_id`). -/
structure PlanRec where
  id : Nat
  trainer : String
  client : String
  plan : String
deriving DecidableEq, Repr

/-- The document store: the four independent collections. -/
structure Store where
  users : List User
  workouts : List Workout
  metrics : List Metric
  plans : List PlanRec
deriving DecidableEq, Repr

/-- A value in a JSON response body. Record arrays appear in the listing
endpoints' bodies. -/
inductive RVal where
  | rbool : Bool → RVal
  | rstr : String → RVal
  | rworkouts : List Workout → RVal
  | rmetrics : List Metric → RVal
  | rplans : List PlanRec → RVal
deriving DecidableEq, Repr

/-- One call against the document store, tagged with the collection it
touches. -/
inductive StoreOp where
  | read : String → StoreOp
  | write : String → StoreOp
deriving DecidableEq, Repr

/-- Result of running one handler: HTTP status, JSON body as key/value
pairs in emission order, the store afterwards, and the store operations the
handler performed. -/
structure HResult where
  status : Nat
  body : List (String × RVal)
  store : Store
  ops : List StoreOp
deriving DecidableEq, Repr

/-- Request body of `POST /register` after destructuring. -/
structure RegisterBody where
  fullname : Option String
  email : Option String
  password : Option String
  role : Option String
  goal : Option String
  specialization : Option String
  experience : Option String
  certification : Option String
deriving DecidableEq, Repr

/-- The `userData` object the register handler assembles: the common fields
plus exactly the role-specific ones (`certification` defaulted with
`certification || ''` for trainers). -/
def buildUserData (b : RegisterBody) : User :=
  let base : User :=
    ⟨b.fullname.getD "", b.email.getD "", b.password.getD "", b.role.getD "",
      none, none, none, none⟩
  if b.role == some "client" then
    { base with goal := b.goal }
  else if b.role == some "trainer" then
    { base with
        specialization := b.specialization
        experience := b.experience
        certification := some (if strTruthy b.certification then b.certification.getD "" else "") }
  else base

/-- Schema defaults applied by the store layer on save: `certification`
defaults to the empty string when unset. -/
def applyUserDefaults (u : User) : User :=
  { u with certification := some (u.certification.getD "") }

/-- Store-layer document validation from `userSchema`: required string
fields must be non-empty, `role` must be in the `['client', 'trainer']`
enum, `goal` is required for clients, `specialization` and `experience` for
trainers. -/
def validUserDoc (u : User) : Bool :=
  !u.fullname.isEmpty && !u.email.isEmpty && !u.password.isEmpty &&
  (u.role == "client" || u.role == "trainer") &&
  (u.role != "client" || strTruthy u.goal) &&
  (u.role != "trainer" || (strTruthy u.specialization && strTruthy u.experience))

/-- `POST /register`: field validation, role-specific validation, an
existence check by email, then the save; a save rejected by schema
validation surfaces as the 500 branch. -/
def postRegister (s : Store) (b : RegisterBody) : HResult :=
  if !(strTruthy b.fullname && strTruthy b.email && strTruthy b.password && strTruthy b.role) then
    ⟨400, [("msg", .rstr "Full name, email, password, and role are required")], s, []⟩
  else if b.role == some "client" && !strTruthy b.goal then
    ⟨400, [("msg", .rstr "Fitness goal is required for client registration")], s, []⟩
  else if b.role == some "trainer" && (!strTruthy b.specialization || !strTruthy b.experience) then
    ⟨400, [("msg", .rstr "Specialization and experience are required for trainer registration")], s, []⟩
  else
    let email := b.email.getD ""
    if s.users.any (fun u => u.email == email) then
      ⟨400, [("msg", .rstr "User already exists")], s, [.read "users"]⟩
    else
      let doc := applyUserDefaults (buildUserData b)
      if validUserDoc doc then
        ⟨201, [("msg", .rstr "Registered successfully")],
          { s with users := s.users ++ [doc] }, [.read "users", .write "users"]⟩
      else
        ⟨500, [("msg", .rstr "Server error")], s, [.read "users", .write "users"]⟩

/-- Request body of `POST /login` after destructuring. -/
structure LoginBody where
  email : Option String
  password : Option String
  role : Option String
deriving DecidableEq, Repr

/-- The exact-match predicate of `User.findOne({ email, password, role })`. -/
def userMatches (e p r : String) (u : User) : Bool :=
  u.email == e && u.password == p && u.role == r

/-- Emit a response key only when the stored field is defined (an undefined
field is dropped from the serialized JSON). -/
def optField (k : String) : Option String → List (String × RVal)
  | some v => [(k, .rstr v)]
  | none => []

/-- The login success response: base profile plus the role-specific
fields. -/
def loginRespBody (u : User) : List (String × RVal) :=
  [("success", .rbool true), ("fullname", .rstr u.fullname),
   ("email", .rstr u.email), ("role", .rstr u.role)] ++
  (if u.role == "client" then optField "goal" u.goal
   else if u.role == "trainer" then
     optField "specialization" u.specialization ++ optField "experience" u.experience ++
     optField "certification" u.certification
   else [])

/-- `POST /login`: presence check, then exact-match lookup on the triple
(email, password, role). -/
def postLogin (s : Store) (b : LoginBody) : HResult :=
  if !(strTruthy b.email && strTruthy b.password && strTruthy b.role) then
    ⟨400, [("msg", .rstr "All fields are required")], s, []⟩
  else
    match s.users.find? (userMatches (b.email.getD "") (b.password.getD "") (b.role.getD "")) with
    | none => ⟨400, [("msg", .rstr "Invalid credentials or role")], s, [.read "users"]⟩
    | some u => ⟨200, loginRespBody u, s, [.read "users"]⟩

/-- Request body of `POST /log-workout` after destructuring; `wtype` embeds
the `type` field. -/
structure WorkoutBody where
  email : Option String
  wtype : Option String
  duration : Option JsonVal
  calories : Option JsonVal
  date : Option String
  notes : Option String
deriving DecidableEq, Repr

/-- `POST /log-workout`: truthiness check on the required fields, `parseInt`
coercion of duration and calories, `notes || ''`, then the save. -/
def postLogWorkout (s : Store) (b : WorkoutBody) : HResult :=
  if !(strTruthy b.email && strTruthy b.wtype && jvTruthy b.duration &&
       jvTruthy b.calories && strTruthy b.date) then
    ⟨400, [("msg", .rstr "All required fields are missing")], s, []⟩
  else
    let w : Workout :=
      ⟨b.email.getD "", b.wtype.getD "",
        parseIntJS (b.duration.getD (.vnum 0)), parseIntJS (b.calories.getD (.vnum 0)),
        b.date.getD "", if strTruthy b.notes then b.notes.getD "" else ""⟩
    ⟨200, [("success", .rbool true), ("msg", .rstr "Workout logged")],
      { s with workouts := s.workouts ++ [w] }, [.write "workouts"]⟩

/-- `Workout.find({ email })` as used by `GET /workouts/:email`. -/
def workoutsByEmail (s : Store) (e : String) : List Workout :=
  s.workouts.filter (fun w => w.email == e)

/-- `GET /workouts/:email`. -/
def getWorkoutsByEmail (s : Store) (e : String) : HResult :=
  ⟨200, [("success", .rbool true), ("workouts", .rworkouts (workoutsByEmail s e))],
    s, [.read "workouts"]⟩

/-- Request body of `POST /metrics` after destructuring. -/
structure MetricsBody where
  email : Option String
  date : Option String
  weight : Option JsonVal
  bmi : Option JsonVal
  fat : Option JsonVal
deriving DecidableEq, Repr

/-- `POST /metrics`: truthiness check on email, date, weight and bmi, then
the save; the numeric fields are passed through unchanged, with
`fat || 0`. -/
def postMetrics (s : Store) (b : MetricsBody) : HResult :=
  if !(strTruthy b.email && strTruthy b.date && jvTruthy b.weight && jvTruthy b.bmi) then
    ⟨400, [("msg", .rstr "All required fields must be provided")], s, []⟩
  else
    let m : Metric :=
      ⟨b.email.getD "", b.date.getD "",
        b.weight.getD (.vnum 0), b.bmi.getD (.vnum 0),
        if jvTruthy b.fat then b.fat.getD (.vnum 0) else .vnum 0⟩
    ⟨200, [("success", .rbool true), ("msg", .rstr "Metrics updated")],
      { s with metrics := s.metrics ++ [m] }, [.write "metrics"]⟩

/-- `Metrics.find({ email })` as used by `GET /metrics/:email`. -/
def metricsByEmail (s : Store) (e : String) : List Metric :=
  s.metrics.filter (fun m => m.email == e)

/-- `GET /metrics/:email`. -/
def getMetricsByEmail (s : Store) (e : String) : HResult :=
  ⟨200, [("success", .rbool true), ("metrics", .rmetrics (metricsByEmail s e))],
    s, [.read "metrics"]⟩

/-- Request body of `POST /plans` after destructuring. -/
structure PlanBody where
  trainer : Option String
  client : Option String
  plan : Option String
deriving DecidableEq, Repr

/-- The record identifier the store assigns to a newly inserted plan:
any value distinct from the existing ones. -/
def freshPlanId (l : List PlanRec) : Nat :=
  (l.map (fun r => r.id)).foldr max 0 + 1

/-- `POST /plans`: truthiness check on the three fields, then the save. -/
def postPlans (s : Store) (b : PlanBody) : HResult :=
  if !(strTruthy b.trainer && strTruthy b.client && strTruthy b.plan) then
    ⟨400, [("msg", .rstr "All fields are required")], s, []⟩
  else
    let p : PlanRec :=
      ⟨freshPlanId s.plans, b.trainer.getD "", b.client.getD "", b.plan.getD ""⟩
    ⟨200, [("success", .rbool true), ("msg", .rstr "Plan assigned")],
      { s with plans := s.plans ++ [p] }, [.write "plans"]⟩

/-- `Plan.find({ trainer })` as used by `GET /plans/:trainer`. -/
def plansByTrainer (s : Store) (t : String) : List PlanRec :=
  s.plans.filter (fun r => r.trainer == t)

/-- `GET /plans/:trainer`. -/
def getPlansByTrainer (s : Store) (t : String) : HResult :=
  ⟨200, [("success", .rbool true), ("plans", .rplans (plansByTrainer s t))],
    s, [.read "plans"]⟩

/-- `Plan.findByIdAndUpdate(id, { client, plan })`: the single document with
the given identifier gets its `client` and `plan` fields set; an undefined
body field is stripped from the update and leaves the stored field as it
was. -/
def updatePlanList (i : Nat) (c p : Option String) : List PlanRec → List PlanRec
  | [] => []
  | r :: rs =>
    if r.id == i then
      { r with client := c.getD r.client, plan := p.getD r.plan } :: rs
    else r :: updatePlanList i c p rs

/-- `PUT /plans/:id`: no existence check, always a success response. -/
def putPlanById (s : Store) (i : Nat) (b : PlanBody) : HResult :=
  ⟨200, [("success", .rbool true), ("msg", .rstr "Plan updated")],
    { s with plans := updatePlanList i b.client b.plan s.plans }, [.write "plans"]⟩

/-- `Plan.findByIdAndDelete(id)`: remove the single document with the given
identifier. -/
def deletePlanList (i : Nat) : List PlanRec → List PlanRec
  | [] => []
  | r :: rs => if r.id == i then rs else r :: deletePlanList i rs

/-- `DELETE /plans/:id`: no existence check, always a success response. -/
def deletePlanById (s : Store) (i : Nat) : HResult :=
  ⟨200, [("success", .rbool true), ("msg", .rstr "Plan deleted")],
    { s with plans := deletePlanList i s.plans }, [.write "plans"]⟩

/-- `POST /test`: echoes the request body back, touching nothing. -/
def postTest (s : Store) (body : List (String × RVal)) : HResult :=
  ⟨200, [("success", .rbool true), ("msg", .rstr "Test endpoint working")] ++ body, s, []⟩

/-- `POST /logout`: acknowledgement only, no server-side state. -/
def postLogout (s : Store) : HResult :=
  ⟨200, [("msg", .rstr "Logged out on client side. No server session stored.")], s, []⟩

/-- One request to any of the mounted routes. -/
inductive Request where
  | register : RegisterBody → Request
  | login : LoginBody → Request
  | logWorkout : WorkoutBody → Request
  | listWorkouts : String → Request
  | storeMetrics : MetricsBody → Request
  | listMetrics : String → Request
  | assignPlan : PlanBody → Request
  | listPlans : String → Request
  | updatePlan : Nat → PlanBody → Request
  | removePlan : Nat → Request
  | testEcho : List (String × RVal) → Request
  | logout : Request
deriving Repr

/-- The router: dispatch a request to its handler. -/
def handle (s : Store) : Request → HResult
  | .register b => postRegister s b
  | .login b => postLogin s b
  | .logWorkout b => postLogWorkout s b
  | .listWorkouts e => getWorkoutsByEmail s e
  | .storeMetrics b => postMetrics s b
  | .listMetrics e => getMetricsByEmail s e
  | .assignPlan b => postPlans s b
  | .listPlans t => getPlansByTrainer s t
  | .updatePlan i b => putPlanById s i b
  | .removePlan i => deletePlanById s i
  | .testEcho b => postTest s b
  | .logout => postLogout s

/-- Counts of read and write operations in a trace. -/
def readCount (ops : List StoreOp) : Nat :=
  (ops.filter (fun o => match o with | .read _ => true | .write _ => false)).length

/-- Number of write operations in a trace. -/
def writeCount (ops : List StoreOp) : Nat :=
  (ops.filter (fun o => match o with | .read _ => false | .write _ => true)).length

/-- The store changed by at most one record in one collection: unchanged,
or one record appended to a single collection, or a single plan record
rewritten in place, or a single plan record removed. -/
def atMostOneRecordChange (s s' : Store) : Prop :=
  s' = s
  ∨ (∃ u, s' = { s with users := s.users ++ [u] })
  ∨ (∃ w, s' = { s with workouts := s.workouts ++ [w] })
  ∨ (∃ m, s' = { s with metrics := s.metrics ++ [m] })
  ∨ (∃ p, s' = { s with plans := s.plans ++ [p] })
  ∨ (∃ n r, s' = { s with plans := s.plans.set n r })
  ∨ (∃ n, s' = { s with plans := s.plans.eraseIdx n })

/-- Validity of a register body as the handler's guards accept it: the four
common fields truthy plus the role-appropriate fields truthy for a
recognized role. -/
def registerBodyValid (b : RegisterBody) : Bool :=
  strTruthy b.fullname && strTruthy b.email && strTruthy b.password &&
  ((b.role == some "client" && strTruthy b.goal) ||
   (b.role == some "trainer" && strTruthy b.specialization && strTruthy b.experience))

/-- Concrete empty store used to instantiate the theorems. -/
def emptyStore : Store := ⟨[], [], [], []⟩

/-- Concrete valid client registration body. -/
def clientBody : RegisterBody :=
  ⟨some "Alice A", some "c@x.com", some "pw", some "client", some "G", none, none, none⟩

/-- Concrete valid trainer registration body. -/
def trainerBody : RegisterBody :=
  ⟨some "Tom T", some "t@x.com", some "pw2", some "trainer", none, some "S", some "E", none⟩

/-- Concrete stored client account. -/
def clientUser : User :=
  ⟨"Alice A", "c@x.com", "pw", "client", some "G", none, none, some ""⟩

/-- Concrete store holding the one client account. -/
def oneUserStore : Store := ⟨[clientUser], [], [], []⟩

/-- Concrete store holding three plans from two trainers. -/
def threePlanStore : Store :=
  ⟨[], [], [],
   [⟨1, "t@x.com", "c@x.com", "P1"⟩, ⟨2, "t@x.com", "d@x.com", "P2"⟩,
    ⟨3, "u@x.com", "c@x.com", "P3"⟩]⟩

lemma strTruthy_getD {o : Option String} (h : strTruthy o = true) :
    (o.getD "").isEmpty = false := by
  cases o with
  | none => simp [strTruthy] at h
  | some s => simpa [strTruthy] using h

lemma validUserDoc_applyUserDefaults (u : User) :
    validUserDoc (applyUserDefaults u) = validUserDoc u := rfl

lemma buildUserData_email (b : RegisterBody) :
    (buildUserData b).email = b.email.getD "" := by
  unfold buildUserData
  split
  · rfl
  · split <;> rfl

lemma buildUserData_role (b : RegisterBody) :
    (buildUserData b).role = b.role.getD "" := by
  unfold buildUserData
  split
  · rfl
  · split <;> rfl

lemma applyUserDefaults_email (u : User) : (applyUserDefaults u).email = u.email := rfl

lemma applyUserDefaults_role (u : User) : (applyUserDefaults u).role = u.role := rfl

lemma registerBodyValid_guards {b : RegisterBody} (hv : registerBodyValid b = true) :
    (strTruthy b.fullname && strTruthy b.email && strTruthy b.password && strTruthy b.role) = true ∧
    (b.role == some "client" && !strTruthy b.goal) = false ∧
    (b.role == some "trainer" && (!strTruthy b.specialization || !strTruthy b.experience)) = false := by
  simp only [registerBodyValid, Bool.and_eq_true, Bool.or_eq_true] at hv
  obtain ⟨⟨⟨hf, he⟩, hp⟩, hrole⟩ := hv
  rcases hrole with ⟨hc, hg⟩ | ⟨⟨ht, hs⟩, hx⟩
  · have hcr : b.role = some "client" := by simpa using hc
    simp [hf, he, hp, hcr, hg,
      (by decide : strTruthy (some "client") = true),
      (by decide : ((some "client" : Option String) == some "trainer") = false)]
  · have htr : b.role = some "trainer" := by simpa using ht
    simp [hf, he, hp, htr, hs, hx,
      (by decide : strTruthy (some "trainer") = true),
      (by decide : ((some "trainer" : Option String) == some "client") = false)]

lemma registerBodyValid_doc {b : RegisterBody} (hv : registerBodyValid b = true) :
    validUserDoc (applyUserDefaults (buildUserData b)) = true := by
  rw [validUserDoc_applyUserDefaults]
  simp only [registerBodyValid, Bool.and_eq_true, Bool.or_eq_true] at hv
  obtain ⟨⟨⟨hf, he⟩, hp⟩, hrole⟩ := hv
  rcases hrole with ⟨hc, hg⟩ | ⟨⟨ht, hs⟩, hx⟩
  · have hcr : b.role = some "client" := by simpa using hc
    simp [validUserDoc, buildUserData, hcr, strTruthy_getD hf, strTruthy_getD he,
      strTruthy_getD hp, hg]
  · have htr : b.role = some "trainer" := by simpa using ht
    simp [validUserDoc, buildUserData, htr, strTruthy_getD hf, strTruthy_getD he,
      strTruthy_getD hp, hs, hx]

lemma postRegister_success {s : Store} {b : RegisterBody}
    (hv : registerBodyValid b = true)
    (hfresh : ∀ u ∈ s.users, u.email ≠ b.email.getD "") :
    postRegister s b =
      ⟨201, [("msg", .rstr "Registered successfully")],
        { s with users := s.users ++ [applyUserDefaults (buildUserData b)] },
        [.read "users", .write "users"]⟩ := by
  obtain ⟨h1, h2, h3⟩ := registerBodyValid_guards hv
  have hany : (s.users.any fun u => u.email == b.email.getD "") = false := by
    simp only [List.any_eq_false]
    intro u hu
    simpa using hfresh u hu
  simp [postRegister, h1, h2, h3, hany, registerBodyValid_doc hv]

lemma postRegister_conflict {s : Store} {b : RegisterBody}
    (hv : registerBodyValid b = true)
    (hhit : (s.users.any fun u => u.email == b.email.getD "") = true) :
    postRegister s b =
      ⟨400, [("msg", .rstr "User already exists")], s, [.read "users"]⟩ := by
  obtain ⟨h1, h2, h3⟩ := registerBodyValid_guards hv
  simp [postRegister, h1, h2, h3, hhit]

/-- C4: a log-workout request with numeric zero duration or calories is
rejected with status 400, the validation-failure message, and an unchanged
store: the truthiness presence check treats the number 0 as missing. -/
theorem logWorkout_zero_rejected (s : Store) (b : WorkoutBody)
    (h : b.duration = some (.vnum 0) ∨ b.calories = some (.vnum 0)) :
    (postLogWorkout s b).status = 400 ∧
    (postLogWorkout s b).store = s ∧
    (postLogWorkout s b).body = [("msg", .rstr "All required fields are missing")] := by
  rcases h with h | h <;> simp [postLogWorkout, h, jvTruthy]

/-- Witness for C4 at a concrete request carrying duration 0. -/
theorem logWorkout_zero_rejected_witness :
    (postLogWorkout emptyStore
        ⟨some "c@x.com", some "run", some (.vnum 0), some (.vnum 300),
          some "2024-01-01", none⟩).status = 400 ∧
    (postLogWorkout emptyStore
        ⟨some "c@x.com", some "run", some (.vnum 0), some (.vnum 300),
          some "2024-01-01", none⟩).store = emptyStore ∧
    (postLogWorkout emptyStore
        ⟨some "c@x.com", some "run", some (.vnum 0), some (.vnum 300),
          some "2024-01-01", none⟩).body =
      [("msg", .rstr "All required fields are missing")] :=
  logWorkout_zero_rejected emptyStore _ (Or.inl rfl)

lemma lookup_password_loginRespBody (u : User) :
    List.lookup "password" (loginRespBody u) = none := by
  unfold loginRespBody
  split
  · cases u.goal <;> simp [optField, List.lookup]
  · split
    · cases u.specialization <;> cases u.experience <;> cases u.certification <;>
        simp [optField, List.lookup]
    · simp [List.lookup]

/-- C10: no login response body ever carries a `password` key — on success
it consists of the profile and role-specific fields only, and the error
bodies carry only a message. -/
theorem login_never_reveals_password (s : Store) (b : LoginBody) :
    List.lookup "password" (postLogin s b).body = none := by
  unfold postLogin
  split
  · simp [List.lookup]
  · rcases h : s.users.find? (userMatches (b.email.getD "") (b.password.getD "") (b.role.getD "")) with _ | u
    · simp [h, List.lookup]
    · simp [h, lookup_password_loginRespBody]

/-- C9: log-workout stores the `parseInt` coercion of the supplied duration
and calories, while store-metric appends a record whose weight, bmi and fat
are exactly the supplied JSON values. -/
theorem numeric_coercion_spec (s s2 : Store) (wb : WorkoutBody) (mb : MetricsBody)
    (d c w bm f : JsonVal)
    (hwd : wb.duration = some d) (hwc : wb.calories = some c)
    (hwe : strTruthy wb.email = true) (hwt : strTruthy wb.wtype = true)
    (hwdt : jvTruthy (some d) = true) (hwct : jvTruthy (some c) = true)
    (hwdate : strTruthy wb.date = true)
    (hmw : mb.weight = some w) (hmb : mb.bmi = some bm) (hmf : mb.fat = some f)
    (hme : strTruthy mb.email = true) (hmdate : strTruthy mb.date = true)
    (hmwt : jvTruthy (some w) = true) (hmbt : jvTruthy (some bm) = true)
    (hmft : jvTruthy (some f) = true) :
    (∃ wrec : Workout,
        (postLogWorkout s wb).store.workouts = s.workouts ++ [wrec] ∧
        wrec.duration = parseIntJS d ∧ wrec.calories = parseIntJS c) ∧
    (∃ m : Metric,
        (postMetrics s2 mb).store.metrics = s2.metrics ++ [m] ∧
        m.weight = w ∧ m.bmi = bm ∧ m.fat = f) := by
  constructor
  · refine ⟨⟨wb.email.getD "", wb.wtype.getD "", parseIntJS d, parseIntJS c,
      wb.date.getD "", if strTruthy wb.notes then wb.notes.getD "" else ""⟩, ?_, rfl, rfl⟩
    simp [postLogWorkout, hwd, hwc, hwe, hwt, hwdt, hwct, hwdate]
  · refine ⟨⟨mb.email.getD "", mb.date.getD "", w, bm, f⟩, ?_, rfl, rfl, rfl⟩
    simp [postMetrics, hmw, hmb, hmf, hme, hmdate, hmwt, hmbt, hmft]

/-- Witness for C9: duration supplied as the text "30", calories as the
number 300, metric values supplied as numbers with fat as text. -/
theorem numeric_coercion_spec_witness :
    (∃ wrec : Workout,
        (postLogWorkout emptyStore
            ⟨some "c@x.com", some "run", some (.vstr "30"), some (.vnum 300),
              some "2024-01-01", none⟩).store.workouts = emptyStore.workouts ++ [wrec] ∧
        wrec.duration = parseIntJS (.vstr "30") ∧ wrec.calories = parseIntJS (.vnum 300)) ∧
    (∃ m : Metric,
        (postMetrics emptyStore
            ⟨some "c@x.com", some "2024-01-01", some (.vnum 70), some (.vnum 22),
              some (.vstr "12")⟩).store.metrics = emptyStore.metrics ++ [m] ∧
        m.weight = .vnum 70 ∧ m.bmi = .vnum 22 ∧ m.fat = .vstr "12") :=
  numeric_coercion_spec emptyStore emptyStore _ _ _ _ _ _ _
    rfl rfl (by decide) (by decide) (by decide) (by decide) (by decide)
    rfl rfl rfl (by decide) (by decide) (by decide) (by decide) (by decide)

/-- C3: with the common fields present, a client registration without a
truthy goal is rejected 400 with the goal message and no store change; a
trainer registration missing specialization or experience is rejected 400
with the trainer message and no store change; a fully valid body whose
email is unregistered succeeds with 201 and appends the account. -/
theorem register_validation_spec (s : Store) (b : RegisterBody)
    (hf : strTruthy b.fullname = true) (he : strTruthy b.email = true)
    (hp : strTruthy b.password = true) :
    (b.role = some "client" → strTruthy b.goal = false →
      (postRegister s b).status = 400 ∧ (postRegister s b).store = s ∧
      (postRegister s b).body =
        [("msg", .rstr "Fitness goal is required for client registration")]) ∧
    (b.role = some "trainer" →
      (strTruthy b.specialization = false ∨ strTruthy b.experience = false) →
      (postRegister s b).status = 400 ∧ (postRegister s b).store = s ∧
      (postRegister s b).body =
        [("msg", .rstr "Specialization and experience are required for trainer registration")]) ∧
    (registerBodyValid b = true → (∀ u ∈ s.users, u.email ≠ b.email.getD "") →
      (postRegister s b).status = 201 ∧
      (postRegister s b).store.users =
        s.users ++ [applyUserDefaults (buildUserData b)]) := by
  refine ⟨?_, ?_, ?_⟩
  · intro hrole hgoal
    simp [postRegister, hf, he, hp, hrole, hgoal,
      (by decide : strTruthy (some "client") = true)]
  · intro hrole hmiss
    rcases hmiss with hmiss | hmiss <;>
      simp [postRegister, hf, he, hp, hrole, hmiss,
        (by decide : strTruthy (some "trainer") = true),
        (by decide : ((some "trainer" : Option String) == some "client") = false)]
  · intro hv hfresh
    rw [postRegister_success hv hfresh]
    exact ⟨rfl, rfl⟩

/-- Witness for C3: goal-less client body rejected, specialization-less
trainer body rejected, the valid client body accepted on the empty store. -/
theorem register_validation_spec_witness :
    ((postRegister emptyStore
        ⟨some "Alice A", some "c@x.com", some "pw", some "client", none, none, none, none⟩).status
      = 400) ∧
    ((postRegister emptyStore
        ⟨some "Tom T", some "t@x.com", some "pw2", some "trainer", none, none, some "E", none⟩).status
      = 400) ∧
    (postRegister emptyStore clientBody).status = 201 := by
  refine ⟨?_, ?_, ?_⟩
  · exact ((register_validation_spec emptyStore
      ⟨some "Alice A", some "c@x.com", some "pw", some "client", none, none, none, none⟩
      (by decide) (by decide) (by decide)).1 rfl rfl).1
  · exact ((register_validation_spec emptyStore
      ⟨some "Tom T", some "t@x.com", some "pw2", some "trainer", none, none, some "E", none⟩
      (by decide) (by decide) (by decide)).2.1 rfl (Or.inl rfl)).1
  · exact ((register_validation_spec emptyStore clientBody (by decide) (by decide)
      (by decide)).2.2 (by decide) (by intro u hu; simp [emptyStore] at hu)).1

/-- C2: from a store with no account under email `e`, a first valid
registration with that email succeeds with 201; a second valid registration
with the same email is rejected 400 with the conflict message and changes
nothing, leaving exactly one stored account under `e`. -/
theorem register_conflict_spec (s : Store) (b1 b2 : RegisterBody) (e : String)
    (hv1 : registerBodyValid b1 = true) (hv2 : registerBodyValid b2 = true)
    (he1 : b1.email = some e) (he2 : b2.email = some e)
    (hfresh : ∀ u ∈ s.users, u.email ≠ e) :
    (postRegister s b1).status = 201 ∧
    (postRegister (postRegister s b1).store b2).status = 400 ∧
    (postRegister (postRegister s b1).store b2).body =
      [("msg", .rstr "User already exists")] ∧
    (postRegister (postRegister s b1).store b2).store = (postRegister s b1).store ∧
    ((postRegister (postRegister s b1).store b2).store.users.countP
        (fun u => u.email == e)) = 1 := by
  have hfresh1 : ∀ u ∈ s.users, u.email ≠ b1.email.getD "" := by
    simpa [he1] using hfresh
  have h1 := postRegister_success hv1 hfresh1
  have hdoc1 : (applyUserDefaults (buildUserData b1)).email = e := by
    rw [applyUserDefaults_email, buildUserData_email, he1]; rfl
  have hhit : ((postRegister s b1).store.users.any
      fun u => u.email == b2.email.getD "") = true := by
    rw [h1]
    simp only [List.any_eq_true]
    exact ⟨applyUserDefaults (buildUserData b1), by simp, by simp [hdoc1, he2]⟩
  have h2 := postRegister_conflict hv2 hhit
  refine ⟨by rw [h1], by rw [h2], by rw [h2], by rw [h2], ?_⟩
  rw [h2, h1]
  simp only [List.countP_append]
  have hz : s.users.countP (fun u => u.email == e) = 0 := by
    rw [List.countP_eq_zero]
    intro u hu
    simpa using hfresh u hu
  simp [hz, List.countP_cons, List.countP_nil, hdoc1]

/-- Witness for C2: registering the concrete client body twice on the empty
store. -/
theorem register_conflict_spec_witness :
    (postRegister emptyStore clientBody).status = 201 ∧
    (postRegister (postRegister emptyStore clientBody).store clientBody).status = 400 ∧
    (postRegister (postRegister emptyStore clientBody).store clientBody).body =
      [("msg", .rstr "User already exists")] ∧
    (postRegister (postRegister emptyStore clientBody).store clientBody).store =
      (postRegister emptyStore clientBody).store ∧
    ((postRegister (postRegister emptyStore clientBody).store clientBody).store.users.countP
        (fun u => u.email == "c@x.com")) = 1 :=
  register_conflict_spec emptyStore clientBody clientBody "c@x.com"
    (by decide) (by decide) rfl rfl
    (by intro u hu; simp [emptyStore] at hu)

lemma postRegister_store_cases (s : Store) (b : RegisterBody) :
    (postRegister s b).store = s ∨
    ((postRegister s b).store =
        { s with users := s.users ++ [applyUserDefaults (buildUserData b)] } ∧
      validUserDoc (applyUserDefaults (buildUserData b)) = true) := by
  unfold postRegister
  split
  · exact Or.inl rfl
  split
  · exact Or.inl rfl
  split
  · exact Or.inl rfl
  dsimp only
  split
  · exact Or.inl rfl
  split
  · next h => exact Or.inr ⟨rfl, h⟩
  · exact Or.inl rfl

lemma validUserDoc_role {u : User} (h : validUserDoc u = true) :
    u.role = "client" ∨ u.role = "trainer" := by
  simp only [validUserDoc, Bool.and_eq_true, Bool.or_eq_true] at h
  rcases h with ⟨⟨⟨⟨-, -⟩, hrole⟩, -⟩, -⟩
  rcases hrole with h | h
  · exact Or.inl (by simpa using h)
  · exact Or.inr (by simpa using h)

/-- C8: register preserves the invariant that every stored account's role is
`client` or `trainer` (the schema enum rejects anything else at save), and a
registration whose role is neither value leaves the store untouched. -/
theorem register_role_invariant (s : Store) (b : RegisterBody)
    (hinv : ∀ u ∈ s.users, u.role = "client" ∨ u.role = "trainer") :
    (∀ u ∈ (postRegister s b).store.users, u.role = "client" ∨ u.role = "trainer") ∧
    (b.role ≠ some "client" → b.role ≠ some "trainer" → (postRegister s b).store = s) := by
  constructor
  · rcases postRegister_store_cases s b with h | ⟨h, hdoc⟩
    · rw [h]; exact hinv
    · rw [h]
      intro u hu
      rcases List.mem_append.1 hu with hu | hu
      · exact hinv u hu
      · rcases List.mem_singleton.1 hu with rfl
        exact validUserDoc_role hdoc
  · intro hnc hnt
    rcases postRegister_store_cases s b with h | ⟨-, hdoc⟩
    · exact h
    · exfalso
      rcases validUserDoc_role hdoc with h | h <;>
        rw [applyUserDefaults_role, buildUserData_role] at h
      · exact hnc (by cases hr : b.role with
          | none => rw [hr] at h; simp at h
          | some r => rw [hr] at h; simp at h; rw [h]
          )
      · exact hnt (by cases hr : b.role with
          | none => rw [hr] at h; simp at h
          | some r => rw [hr] at h; simp at h; rw [h]
          )

/-- Witness for C8: the invariant survives registering the concrete trainer
body onto the one-client store, and the role `admin` stores nothing. -/
theorem register_role_invariant_witness :
    (∀ u ∈ (postRegister oneUserStore trainerBody).store.users,
      u.role = "client" ∨ u.role = "trainer") ∧
    (postRegister oneUserStore
        ⟨some "Eve", some "e@x.com", some "pw", some "admin", none, none, none, none⟩).store
      = oneUserStore := by
  constructor
  · exact (register_role_invariant oneUserStore trainerBody
      (by intro u hu; simp only [oneUserStore, List.mem_singleton] at hu
          rw [hu]; exact Or.inl rfl)).1
  · exact (register_role_invariant oneUserStore _
      (by intro u hu; simp only [oneUserStore, List.mem_singleton] at hu
          rw [hu]; exact Or.inl rfl)).2 (by decide) (by decide)

lemma updatePlanList_length (i : Nat) (c p : Option String) :
    ∀ l : List PlanRec, (updatePlanList i c p l).length = l.length := by
  intro l
  induction l with
  | nil => rfl
  | cons r rs ih =>
    unfold updatePlanList
    split
    · simp
    · simpa using ih

lemma updatePlanList_getElem? (i : Nat) (c p : Option String) :
    ∀ (l : List PlanRec) (n : Nat),
      ((updatePlanList i c p l)[n]?.map PlanRec.trainer = l[n]?.map PlanRec.trainer) ∧
      ((updatePlanList i c p l)[n]?.map PlanRec.id = l[n]?.map PlanRec.id) ∧
      (∀ r : PlanRec, l[n]? = some r → r.id ≠ i → (updatePlanList i c p l)[n]? = some r) := by
  intro l
  induction l with
  | nil => intro n; simp [updatePlanList]
  | cons q qs ih =>
    intro n
    unfold updatePlanList
    split
    · next hq =>
      cases n with
      | zero =>
        simp only [List.getElem?_cons_zero, Option.map_some]
        refine ⟨rfl, rfl, ?_⟩
        intro r hr hri
        exfalso
        exact hri (by rw [← Option.some_inj.1 hr]; exact beq_iff_eq.1 hq)
      | succ m =>
        simp only [List.getElem?_cons_succ]
        exact ⟨trivial, trivial, fun r hr _ => hr⟩
    · cases n with
      | zero =>
        simp only [List.getElem?_cons_zero]
        exact ⟨trivial, trivial, fun r hr _ => hr⟩
      | succ m =>
        simp only [List.getElem?_cons_succ]
        exact ih m

/-- C5: updating a plan by identifier leaves the users, workouts and
metrics collections untouched, preserves the number of plans, preserves
every plan's identifier and trainer field, and leaves every plan whose
identifier differs from the target entirely unchanged. -/
theorem plan_update_frame (s : Store) (i : Nat) (b : PlanBody) :
    (putPlanById s i b).store.users = s.users ∧
    (putPlanById s i b).store.workouts = s.workouts ∧
    (putPlanById s i b).store.metrics = s.metrics ∧
    (putPlanById s i b).store.plans.length = s.plans.length ∧
    ∀ n : Nat,
      ((putPlanById s i b).store.plans[n]?.map PlanRec.trainer =
        s.plans[n]?.map PlanRec.trainer) ∧
      ((putPlanById s i b).store.plans[n]?.map PlanRec.id =
        s.plans[n]?.map PlanRec.id) ∧
      (∀ r : PlanRec, s.plans[n]? = some r → r.id ≠ i →
        (putPlanById s i b).store.plans[n]? = some r) := by
  refine ⟨rfl, rfl, rfl, updatePlanList_length i b.client b.plan s.plans, ?_⟩
  intro n
  exact updatePlanList_getElem? i b.client b.plan s.plans n

/-- Witness for C5: rewriting plan 2 in the three-plan store keeps plan 3
(a different identifier) intact and keeps plan 2's trainer. -/
theorem plan_update_frame_witness :
    (putPlanById threePlanStore 2 ⟨none, some "z@x.com", some "NEW"⟩).store.plans[2]? =
      some ⟨3, "u@x.com", "c@x.com", "P3"⟩ ∧
    (putPlanById threePlanStore 2
        ⟨none, some "z@x.com", some "NEW"⟩).store.plans[1]?.map PlanRec.trainer =
      some "t@x.com" := by
  have h := plan_update_frame threePlanStore 2 ⟨none, some "z@x.com", some "NEW"⟩
  constructor
  · exact (h.2.2.2.2 2).2.2 ⟨3, "u@x.com", "c@x.com", "P3"⟩ rfl (by decide)
  · rw [(h.2.2.2.2 1).1]; rfl

lemma deletePlanList_filter (i : Nat) :
    ∀ l : List PlanRec, (l.map PlanRec.id).Nodup →
      deletePlanList i l = l.filter (fun r => r.id != i) := by
  intro l
  induction l with
  | nil => intro _; rfl
  | cons q qs ih =>
    intro hnd
    rw [List.map_cons, List.nodup_cons] at hnd
    obtain ⟨hq, hqs⟩ := hnd
    unfold deletePlanList
    split
    · next hqi =>
      have hqi' : q.id = i := beq_iff_eq.1 hqi
      rw [List.filter_cons_of_neg (by simp [hqi'])]
      rw [List.filter_eq_self.2]
      intro r hr
      have hne : r.id ≠ i := by
        intro hri
        exact hq (by rw [hqi', ← hri]; exact List.mem_map_of_mem PlanRec.id hr)
      simpa using hne
    · next hqi =>
      have hne : q.id ≠ i := by
        intro h
        exact hqi (by rw [h]; exact beq_self_eq_true i)
      rw [List.filter_cons_of_pos (by simpa [bne_iff_ne] using hne)]
      rw [ih hqs]

/-- C6: when plan identifiers are distinct, deleting a plan by identifier
makes any subsequent trainer listing equal to the previous listing with the
records carrying that identifier removed; membership in the new listing is
exactly membership in the old one with a different identifier. -/
theorem plan_delete_listing (s : Store) (i : Nat) (t : String)
    (hids : (s.plans.map PlanRec.id).Nodup) :
    plansByTrainer (deletePlanById s i).store t =
      (plansByTrainer s t).filter (fun r => r.id != i) ∧
    (∀ r : PlanRec, r ∈ plansByTrainer (deletePlanById s i).store t ↔
      (r ∈ plansByTrainer s t ∧ r.id ≠ i)) := by
  have hmain : plansByTrainer (deletePlanById s i).store t =
      (plansByTrainer s t).filter (fun r => r.id != i) := by
    show plansByTrainer { s with plans := deletePlanList i s.plans } t = _
    unfold plansByTrainer
    rw [deletePlanList_filter i s.plans hids]
    rw [List.filter_filter, List.filter_filter]
    apply List.filter_congr
    intro r _
    exact Bool.and_comm _ _
  refine ⟨hmain, ?_⟩
  intro r
  rw [hmain, List.mem_filter]
  simp [bne_iff_ne]

/-- Witness for C6: deleting plan 2 from the three-plan store leaves the
trainer listing for `t@x.com` with only plan 1. -/
theorem plan_delete_listing_witness :
    plansByTrainer (deletePlanById threePlanStore 2).store "t@x.com" =
      (plansByTrainer threePlanStore "t@x.com").filter (fun r => r.id != 2) ∧
    plansByTrainer (deletePlanById threePlanStore 2).store "t@x.com" =
      [⟨1, "t@x.com", "c@x.com", "P1"⟩] := by
  have h := plan_delete_listing threePlanStore 2 "t@x.com" (by decide)
  exact ⟨h.1, by rw [h.1]; rfl⟩

lemma updatePlanList_set (i : Nat) (c p : Option String) :
    ∀ l : List PlanRec,
      updatePlanList i c p l = l ∨ ∃ n r, updatePlanList i c p l = l.set n r := by
  intro l
  induction l with
  | nil => exact Or.inl rfl
  | cons q qs ih =>
    unfold updatePlanList
    split
    · exact Or.inr ⟨0, _, by rw [List.set_cons_zero]⟩
    · rcases ih with h | ⟨n, r, h⟩
      · exact Or.inl (by rw [h])
      · exact Or.inr ⟨n + 1, r, by rw [h, List.set_cons_succ]⟩

lemma deletePlanList_eraseIdx (i : Nat) :
    ∀ l : List PlanRec,
      deletePlanList i l = l ∨ ∃ n, deletePlanList i l = l.eraseIdx n := by
  intro l
  induction l with
  | nil => exact Or.inl rfl
  | cons q qs ih =>
    unfold deletePlanList
    split
    · exact Or.inr ⟨0, by rw [List.eraseIdx_cons_zero]⟩
    · rcases ih with h | ⟨n, h⟩
      · exact Or.inl (by rw [h])
      · exact Or.inr ⟨n + 1, by rw [h, List.eraseIdx_cons_succ]⟩

/-- C7 counterexample: a valid fresh registration performs two store
operations (the existence-check read and the insert write), so no handler
performs exactly one store operation on every request. -/
theorem register_two_store_ops :
    (handle emptyStore (Request.register clientBody)).ops.length ≠ 1 := by
  decide

/-- C7 amended: every endpoint handler performs at most one read and at
most one write against the store per request, and changes the store by at
most one record in one collection. -/
theorem handler_store_discipline (s : Store) (req : Request) :
    readCount (handle s req).ops ≤ 1 ∧ writeCount (handle s req).ops ≤ 1 ∧
    atMostOneRecordChange s (handle s req).store := by
  cases req with
  | register b =>
    show readCount (postRegister s b).ops ≤ 1 ∧ writeCount (postRegister s b).ops ≤ 1 ∧
      atMostOneRecordChange s (postRegister s b).store
    unfold postRegister
    split
    · exact ⟨Nat.zero_le 1, Nat.zero_le 1, Or.inl rfl⟩
    split
    · exact ⟨Nat.zero_le 1, Nat.zero_le 1, Or.inl rfl⟩
    split
    · exact ⟨Nat.zero_le 1, Nat.zero_le 1, Or.inl rfl⟩
    dsimp only
    split
    · exact ⟨Nat.le.refl, Nat.zero_le 1, Or.inl rfl⟩
    split
    · exact ⟨Nat.le.refl, Nat.le.refl, Or.inr (Or.inl ⟨_, rfl⟩)⟩
    · exact ⟨Nat.le.refl, Nat.le.refl, Or.inl rfl⟩
  | login b =>
    show readCount (postLogin s b).ops ≤ 1 ∧ writeCount (postLogin s b).ops ≤ 1 ∧
      atMostOneRecordChange s (postLogin s b).store
    unfold postLogin
    split
    · exact ⟨Nat.zero_le 1, Nat.zero_le 1, Or.inl rfl⟩
    split
    · exact ⟨Nat.le.refl, Nat.zero_le 1, Or.inl rfl⟩
    · exact ⟨Nat.le.refl, Nat.zero_le 1, Or.inl rfl⟩
  | logWorkout b =>
    show readCount (postLogWorkout s b).ops ≤ 1 ∧ writeCount (postLogWorkout s b).ops ≤ 1 ∧
      atMostOneRecordChange s (postLogWorkout s b).store
    unfold postLogWorkout
    split
    · exact ⟨Nat.zero_le 1, Nat.zero_le 1, Or.inl rfl⟩
    · exact ⟨Nat.zero_le 1, Nat.le.refl, Or.inr (Or.inr (Or.inl ⟨_, rfl⟩))⟩
  | listWorkouts e => exact ⟨Nat.le.refl, Nat.zero_le 1, Or.inl rfl⟩
  | storeMetrics b =>
    show readCount (postMetrics s b).ops ≤ 1 ∧ writeCount (postMetrics s b).ops ≤ 1 ∧
      atMostOneRecordChange s (postMetrics s b).store
    unfold postMetrics
    split
    · exact ⟨Nat.zero_le 1, Nat.zero_le 1, Or.inl rfl⟩
    · exact ⟨Nat.zero_le 1, Nat.le.refl, Or.inr (Or.inr (Or.inr (Or.inl ⟨_, rfl⟩)))⟩
  | listMetrics e => exact ⟨Nat.le.refl, Nat.zero_le 1, Or.inl rfl⟩
  | assignPlan b =>
    show readCount (postPlans s b).ops ≤ 1 ∧ writeCount (postPlans s b).ops ≤ 1 ∧
      atMostOneRecordChange s (postPlans s b).store
    unfold postPlans
    split
    · exact ⟨Nat.zero_le 1, Nat.zero_le 1, Or.inl rfl⟩
    · exact ⟨Nat.zero_le 1, Nat.le.refl,
        Or.inr (Or.inr (Or.inr (Or.inr (Or.inl ⟨_, rfl⟩))))⟩
  | listPlans t => exact ⟨Nat.le.refl, Nat.zero_le 1, Or.inl rfl⟩
  | updatePlan i b =>
    refine ⟨Nat.zero_le 1, Nat.le.refl, ?_⟩
    rcases updatePlanList_set i b.client b.plan s.plans with h | ⟨n, r, h⟩
    · exact Or.inl (by show { s with plans := updatePlanList i b.client b.plan s.plans } = s
                       rw [h])
    · exact Or.inr (Or.inr (Or.inr (Or.inr (Or.inr (Or.inl ⟨n, r,
        by show { s with plans := updatePlanList i b.client b.plan s.plans } = _
           rw [h]⟩)))))
  | removePlan i =>
    refine ⟨Nat.zero_le 1, Nat.le.refl, ?_⟩
    rcases deletePlanList_eraseIdx i s.plans with h | ⟨n, h⟩
    · exact Or.inl (by show { s with plans := deletePlanList i s.plans } = s
                       rw [h])
    · exact Or.inr (Or.inr (Or.inr (Or.inr (Or.inr (Or.inr ⟨n,
        by show { s with plans := deletePlanList i s.plans } = _
           rw [h]⟩)))))
  | testEcho b => exact ⟨Nat.zero_le 1, Nat.zero_le 1, Or.inl rfl⟩
  | logout => exact ⟨Nat.zero_le 1, Nat.zero_le 1, Or.inl rfl⟩

lemma find?_of_unique {α : Type} (p : α → Bool) :
    ∀ (l : List α) (u : α), u ∈ l → p u = true → (∀ v ∈ l, p v = true → v = u) →
      l.find? p = some u := by
  intro l
  induction l with
  | nil =>
    intro u hu _ _
    exact absurd hu (List.not_mem_nil u)
  | cons a as ih =>
    intro u hu hpu huniq
    cases hpa : p a with
    | true =>
      rw [List.find?_cons_of_pos _ hpa]
      exact congrArg some (huniq a (List.mem_cons_self a as) hpa)
    | false =>
      rw [List.find?_cons_of_neg _ (by simp [hpa])]
      rcases List.mem_cons.1 hu with rfl | hu'
      · rw [hpu] at hpa
        exact Bool.noConfusion hpa
      · exact ih u hu' hpu fun v hv hpv => huniq v (List.mem_cons_of_mem a hv) hpv

lemma lookup_loginRespBody (u : User) :
    List.lookup "success" (loginRespBody u) = some (.rbool true) ∧
    List.lookup "fullname" (loginRespBody u) = some (.rstr u.fullname) ∧
    List.lookup "email" (loginRespBody u) = some (.rstr u.email) ∧
    List.lookup "role" (loginRespBody u) = some (.rstr u.role) ∧
    (u.role = "client" → List.lookup "goal" (loginRespBody u) = u.goal.map RVal.rstr) ∧
    (u.role = "trainer" →
      List.lookup "specialization" (loginRespBody u) = u.specialization.map RVal.rstr ∧
      List.lookup "experience" (loginRespBody u) = u.experience.map RVal.rstr ∧
      List.lookup "certification" (loginRespBody u) = u.certification.map RVal.rstr) := by
  unfold loginRespBody
  refine ⟨?_, ?_, ?_, ?_, ?_, ?_⟩
  · simp [List.lookup]
  · simp [List.lookup]
  · simp [List.lookup]
  · simp [List.lookup]
  · intro hrole
    rw [hrole]
    cases u.goal <;> simp [List.lookup, optField]
  · intro hrole
    rw [hrole]
    cases u.specialization <;> cases u.experience <;> cases u.certification <;>
      simp [List.lookup, optField]

/-- C1: with all three login fields supplied and account emails unique, a
request matching a stored account's email, password and role exactly
returns 200 with success, fullname, email, role and the role-appropriate
fields of that account; a request matching no stored account on the triple
returns the 400 invalid-credentials response. -/
theorem login_auth_spec (s : Store) (e p r : String)
    (he : e ≠ "") (hp : p ≠ "") (hr : r ≠ "") :
    ((s.users.map User.email).Nodup →
      ∀ u ∈ s.users, u.email = e → u.password = p → u.role = r →
        (postLogin s ⟨some e, some p, some r⟩).status = 200 ∧
        List.lookup "success" (postLogin s ⟨some e, some p, some r⟩).body =
          some (.rbool true) ∧
        List.lookup "fullname" (postLogin s ⟨some e, some p, some r⟩).body =
          some (.rstr u.fullname) ∧
        List.lookup "email" (postLogin s ⟨some e, some p, some r⟩).body =
          some (.rstr u.email) ∧
        List.lookup "role" (postLogin s ⟨some e, some p, some r⟩).body =
          some (.rstr u.role) ∧
        (u.role = "client" →
          List.lookup "goal" (postLogin s ⟨some e, some p, some r⟩).body =
            u.goal.map RVal.rstr) ∧
        (u.role = "trainer" →
          List.lookup "specialization" (postLogin s ⟨some e, some p, some r⟩).body =
            u.specialization.map RVal.rstr ∧
          List.lookup "experience" (postLogin s ⟨some e, some p, some r⟩).body =
            u.experience.map RVal.rstr ∧
          List.lookup "certification" (postLogin s ⟨some e, some p, some r⟩).body =
            u.certification.map RVal.rstr)) ∧
    ((∀ u ∈ s.users, ¬(u.email = e ∧ u.password = p ∧ u.role = r)) →
      (postLogin s ⟨some e, some p, some r⟩).status = 400 ∧
      (postLogin s ⟨some e, some p, some r⟩).body =
        [("msg", .rstr "Invalid credentials or role")]) := by
  have he' : e.isEmpty = false := by
    cases h : e.isEmpty
    · rfl
    · exact absurd ((String.isEmpty_iff e).1 h) he
  have hp' : p.isEmpty = false := by
    cases h : p.isEmpty
    · rfl
    · exact absurd ((String.isEmpty_iff p).1 h) hp
  have hr' : r.isEmpty = false := by
    cases h : r.isEmpty
    · rfl
    · exact absurd ((String.isEmpty_iff r).1 h) hr
  constructor
  · intro hnodup u hu hue hup hur
    have hfind : s.users.find? (userMatches e p r) = some u := by
      apply find?_of_unique _ _ _ hu
      · simp [userMatches, hue, hup, hur]
      · intro v hv hvm
        simp only [userMatches, Bool.and_eq_true, beq_iff_eq] at hvm
        exact List.inj_on_of_nodup_map hnodup hv hu (by rw [hvm.1.1, hue])
    have hpost : postLogin s ⟨some e, some p, some r⟩ =
        ⟨200, loginRespBody u, s, [.read "users"]⟩ := by
      simp [postLogin, strTruthy, he', hp', hr', hfind]
    rw [hpost]
    exact ⟨rfl, lookup_loginRespBody u⟩
  · intro hnone
    have hfind : s.users.find? (userMatches e p r) = none := by
      rw [List.find?_eq_none]
      intro v hv hvm
      simp only [userMatches, Bool.and_eq_true, beq_iff_eq] at hvm
      exact hnone v hv ⟨hvm.1.1, hvm.1.2, hvm.2⟩
    constructor <;> simp [postLogin, strTruthy, he', hp', hr', hfind]

/-- Witness for C1: the concrete one-client store answers the matching
login with 200 and the client's goal, and a wrong-role login with 400. -/
theorem login_auth_spec_witness :
    ((postLogin oneUserStore ⟨some "c@x.com", some "pw", some "client"⟩).status = 200 ∧
      List.lookup "goal"
          (postLogin oneUserStore ⟨some "c@x.com", some "pw", some "client"⟩).body =
        some (.rstr "G")) ∧
    (postLogin oneUserStore ⟨some "c@x.com", some "pw", some "trainer"⟩).status = 400 := by
  have hta := (login_auth_spec oneUserStore "c@x.com" "pw" "client"
      (by decide) (by decide) (by decide)).1 (by decide) clientUser
      (by simp [oneUserStore]) rfl rfl rfl
  have htb := (login_auth_spec oneUserStore "c@x.com" "pw" "trainer"
      (by decide) (by decide) (by decide)).2 (by decide)
  refine ⟨⟨hta.1, ?_⟩, htb.1⟩
  have hg := hta.2.2.2.2.2.1 rfl
  simpa [clientUser] using hg
